import Mathlib

/-!
Shallow embedding of the point-in-polygon master coordinator
(`src/pip/index.js`) and the postal-city table lookup
(`src/postalCityMap.js`) of the wof-admin-lookup package, together with
proofs of the behavioural properties claimed for them.

The coordinator keeps a response queue of pending lookups keyed by a
monotonically increasing request id, cascades each lookup through the
granularity layers from finest to coarsest, and assembles the ancestor
hierarchy of the first hit from the merged WOF data.  JavaScript objects
used as string- or number-keyed maps are embedded as association lists;
callbacks and worker messages are embedded as explicit output events of
each step.
-/

set_option autoImplicit false

/-- First-match lookup in an association list; embeds JavaScript property
access `obj[key]` / `obj.hasOwnProperty(key)` on objects used as maps. -/
def aLookup {κ α : Type} [DecidableEq κ] : List (κ × α) → κ → Option α
  | [], _ => none
  | (k, v) :: rest, key => if k = key then some v else aLookup rest key

namespace Pip

/-- The canonical fine-to-coarse layer order (`defaultLayers`, lines 24-37). -/
def defaultLayers : List String :=
  ["neighbourhood", "borough", "locality", "localadmin", "county",
   "macrocounty", "macroregion", "region", "dependency", "country",
   "marinearea", "ocean"]

/-- Remove duplicates keeping the first occurrence of each element;
`seen` accumulates the elements already emitted. -/
def dedupSeen (seen : List String) : List String → List String
  | [] => []
  | x :: xs =>
    if seen.contains x then dedupSeen seen xs
    else x :: dedupSeen (x :: seen) xs

/-- lodash `_.intersection(xs, ys)`: the unique values of `xs` that also
occur in `ys`, in the order of `xs`. -/
def lodashIntersection (xs ys : List String) : List String :=
  dedupSeen [] (xs.filter (fun x => ys.contains x))

/-- Layer selection performed by `createPIPService` (line 42):
`_.intersection(defaultLayers, _.isEmpty(layers) ? defaultLayers : layers)`.
`none` stands for an absent argument; lodash `_.isEmpty` is true for both
an absent value and an empty array. -/
def createLayers (requested : Option (List String)) : List String :=
  lodashIntersection defaultLayers
    (match requested with
     | none => defaultLayers
     | some l => if l.isEmpty then defaultLayers else l)

/-- Layer selection performed by `lookup` (lines 57-65): an absent
`search_layers` argument defaults to the pool's layers, otherwise the
intersection of the pool's layers with the given list is used. -/
def lookupSearchLayers (active : List String) (requested : Option (List String)) :
    List String :=
  match requested with
  | none => active
  | some l => lodashIntersection active l

/-- A coordinate pair as carried in the bookkeeping object and in search
messages; the coordinator never inspects the values. -/
structure LatLon where
  latitude : Int
  longitude : Int
deriving DecidableEq, Repr

/-- A WOF feature record as stored in `wofData`: its `Hierarchy` is an
array of ancestor-type-to-identifier mappings (embedded as ordered lists
of pairs, matching JavaScript object key order), plus opaque payload. -/
structure FeatureRecord where
  Hierarchy : List (List (String × String))
  Name : String
deriving DecidableEq, Repr

/-- The merged WOF data: feature identifier to feature record. -/
abbrev WofData := List (String × FeatureRecord)

/-- A `responseQueue` entry (lines 80-86): the bookkeeping object that
tracks the progress of one request.  The completion callback is not a
field; callback invocations are emitted as explicit outputs tagged with
the request id. -/
structure PendingRequest where
  results : List FeatureRecord
  latLon : LatLon
  search_layers : List String
deriving DecidableEq, Repr

/-- The coordinator's module-level mutable state: `requestCount`,
`responseQueue`, `wofData`, and the pool's active `layers` (fixed at
creation). -/
structure CoordState where
  requestCount : Nat
  responseQueue : List (Nat × PendingRequest)
  wofData : WofData
  layers : List String
deriving DecidableEq, Repr

/-- A `search` message sent to the worker of `layer` (lines 134-140). -/
structure Dispatch where
  id : Nat
  layer : String
  coords : LatLon
deriving DecidableEq, Repr

/-- `searchWorker(id, workers[layer], coords)`: emit a search message. -/
def searchWorker (id : Nat) (layer : String) (coords : LatLon) : Dispatch :=
  ⟨id, layer, coords⟩

/-- The effect of one coordinator step: the new state, the search
messages sent to workers, and the `responseCallback(null, results)`
invocations (the error argument is always null in the source, so only
the request id and the result list are recorded). -/
structure StepOut where
  state : CoordState
  dispatches : List Dispatch
  callbacks : List (Nat × List FeatureRecord)
deriving DecidableEq, Repr

/-- A `results` message from a worker: the request id and either the
matched feature identifier (`msg.results.Id`) or nothing on a miss
(`_.isEmpty(msg.results)`). -/
structure ResultsMsg where
  id : Nat
  results : Option String
deriving DecidableEq, Repr

/-- Replace the stored layer queue of the entry with key `id`; embeds the
in-place mutation `responseQueue[msg.id].search_layers.shift()`. -/
def qSetLayers (q : List (Nat × PendingRequest)) (id : Nat) (rest : List String) :
    List (Nat × PendingRequest) :=
  q.map (fun p => (p.1, if p.1 = id then { p.2 with search_layers := rest } else p.2))

/-- `delete responseQueue[msg.id]`: remove the entry with key `id`. -/
def qDelete : List (Nat × PendingRequest) → Nat → List (Nat × PendingRequest)
  | [], _ => []
  | p :: rest, id => if p.1 = id then rest else p :: qDelete rest id

/-- The `lookup` closure created by `createPIPService` (lines 56-94).
Allocates `id := requestCount++` before any check; resolves immediately
with an empty list when the effective layer set is empty or (defensively)
when the id is already present; otherwise inserts the bookkeeping entry,
shifts the first layer off its queue and dispatches a search for it. -/
def lookup (st : CoordState) (latitude longitude : Int)
    (requested : Option (List String)) : StepOut :=
  let search_layers := lookupSearchLayers st.layers requested
  let id := st.requestCount
  let st1 : CoordState := { st with requestCount := st.requestCount + 1 }
  match search_layers with
  | [] => { state := st1, dispatches := [], callbacks := [(id, [])] }
  | first :: rest =>
    if (aLookup st1.responseQueue id).isSome then
      { state := st1, dispatches := [], callbacks := [(id, [])] }
    else
      let pr : PendingRequest :=
        { results := [], latLon := ⟨latitude, longitude⟩, search_layers := rest }
      { state := { st1 with responseQueue := (id, pr) :: st1.responseQueue },
        dispatches := [searchWorker id first ⟨latitude, longitude⟩],
        callbacks := [] }

/-- Hierarchy assembly on a hit (lines 162-175): if the matched record's
hierarchy is non-empty, map the values of its first mapping through
`wofData` and compact away the misses; otherwise return the raw record. -/
def assemble (data : WofData) (rec : FeatureRecord) : List FeatureRecord :=
  match rec.Hierarchy with
  | [] => [rec]
  | h0 :: _ => (h0.map Prod.snd).filterMap (fun id => aLookup data id)

/-- `handleResults(msg)` (lines 142-180).  Unknown id: log and discard.
Miss with layers left: shift the next layer and dispatch it.  Miss with
no layers left: resolve with an empty list (note: the entry is not
deleted in this branch of the source).  Hit: assemble the hierarchy of
the matched record, resolve with it and delete the entry; reading
`wofData[msg.results.Id].Hierarchy` of an absent record throws, which is
embedded as `Except.error`. -/
def handleResults (st : CoordState) (msg : ResultsMsg) : Except Unit StepOut :=
  match aLookup st.responseQueue msg.id with
  | none => .ok { state := st, dispatches := [], callbacks := [] }
  | some pr =>
    match msg.results with
    | none =>
      match pr.search_layers with
      | next :: rest =>
        .ok { state := { st with responseQueue := qSetLayers st.responseQueue msg.id rest },
              dispatches := [searchWorker msg.id next pr.latLon],
              callbacks := [] }
      | [] =>
        .ok { state := st, dispatches := [], callbacks := [(msg.id, [])] }
    | some fid =>
      match aLookup st.wofData fid with
      | none => .error ()
      | some rec =>
        .ok { state := { st with responseQueue := qDelete st.responseQueue msg.id },
              dispatches := [],
              callbacks := [(msg.id, assemble st.wofData rec)] }

/-- An event arriving at the coordinator: a `lookup` call from a client
or a `results` message from a worker.  `load` handling is out of scope;
the merged `wofData` is frozen before lookups start. -/
inductive Event where
  | lookupEv (latitude longitude : Int) (requested : Option (List String))
  | resultsEv (msg : ResultsMsg)
deriving DecidableEq, Repr

/-- One observable output of a coordinator step. -/
inductive Output where
  | dispatch (d : Dispatch)
  | callback (id : Nat) (res : List FeatureRecord)
  | thrown
deriving DecidableEq, Repr

/-- Process one event; a `.error` models the uncaught exception thrown
while handling a hit on an absent record. -/
def step (st : CoordState) : Event → Except Unit StepOut
  | .lookupEv lat lon req => .ok (lookup st lat lon req)
  | .resultsEv msg => handleResults st msg

/-- The coordinator state paired with whether an exception has already
escaped the message handler (after which the process is down and no
further event is processed). -/
structure RunState where
  st : CoordState
  halted : Bool
deriving DecidableEq, Repr

/-- Linearise one step's outputs (dispatches before callbacks within a
step; the two never co-occur in any branch of the source). -/
def outputsOf (out : StepOut) : List Output :=
  out.dispatches.map Output.dispatch
    ++ out.callbacks.map (fun c => Output.callback c.1 c.2)

/-- Run one event, producing the next run state and its outputs. -/
def runStep (rs : RunState) (ev : Event) : RunState × List Output :=
  if rs.halted then (rs, [])
  else
    match step rs.st ev with
    | .error _ => ({ rs with halted := true }, [Output.thrown])
    | .ok out => ({ st := out.state, halted := false }, outputsOf out)

/-- Run a sequence of events, concatenating the outputs in order. -/
def run (rs : RunState) : List Event → RunState × List Output
  | [] => (rs, [])
  | ev :: evs =>
    let p := runStep rs ev
    let q := run p.1 evs
    (q.1, p.2 ++ q.2)

/-- The layers dispatched for request `id` in a trace, in order. -/
def dispatchesFor (id : Nat) (tr : List Output) : List String :=
  tr.filterMap (fun o =>
    match o with
    | .dispatch d => if d.id = id then some d.layer else none
    | _ => none)

/-- The dispatches contained in a list of outputs. -/
def dispatchList (tr : List Output) : List Dispatch :=
  tr.filterMap (fun o =>
    match o with
    | .dispatch d => some d
    | _ => none)

/-- The dispatch discipline of one step, relative to the pre-state `st`
and the trace `tr` emitted before it: the step may emit at most one
search dispatch, and any dispatch it emits is either (a) emitted while
processing the lookup call itself, in which case it belongs to the
request id freshly allocated at this step (`st.requestCount`) and is the
very first dispatch ever made for that id, or (b) emitted while
processing a miss reply for exactly the dispatched request id, an id
that has already been dispatched before (the reply answers an earlier
dispatch of the same request).  In particular no lookup step can
dispatch for an already-outstanding id, and every later dispatch of a
request is triggered by the miss reply to its previous one. -/
def DispatchOkFor (st : CoordState) (tr : List Output) (ev : Event)
    (outs : List Output) : Prop :=
  (dispatchList outs).length ≤ 1 ∧
  ∀ d ∈ dispatchList outs,
    ((∃ lat lon req, ev = .lookupEv lat lon req) ∧
       d.id = st.requestCount ∧ dispatchesFor d.id tr = []) ∨
    (ev = .resultsEv ⟨d.id, none⟩ ∧ dispatchesFor d.id tr ≠ [])

/-- Every step of the run satisfies `DispatchOkFor` with respect to its
own pre-state and the outputs accumulated so far (`tr` is the trace
emitted before the first of `evs`). -/
def StepsOk (rs : RunState) (tr : List Output) : List Event → Prop
  | [] => True
  | ev :: evs => DispatchOkFor rs.st tr ev (runStep rs ev).2 ∧
      StepsOk (runStep rs ev).1 (tr ++ (runStep rs ev).2) evs

/-- The reachability invariant of the coordinator relative to the pool's
fixed layer list `layers0`: the active layers never change, queue keys
are unique, ids at or above `requestCount` are untouched, for every
pending request the layers dispatched for it so far followed by its
remaining queue form a sublist of `layers0` (so dispatch order follows
the canonical order and no layer repeats), and every pending request has
already had at least one dispatch (its first was made by the lookup call
that created it). -/
structure Inv (layers0 : List String) (st : CoordState) (tr : List Output) : Prop where
  layersEq : st.layers = layers0
  keyNodup : (st.responseQueue.map Prod.fst).Nodup
  fresh : ∀ id, st.requestCount ≤ id →
    aLookup st.responseQueue id = none ∧ dispatchesFor id tr = []
  pend : ∀ id pr, aLookup st.responseQueue id = some pr →
    List.Sublist (dispatchesFor id tr ++ pr.search_layers) layers0
  disp : ∀ id, List.Sublist (dispatchesFor id tr) layers0
  pendNE : ∀ id pr, aLookup st.responseQueue id = some pr →
    dispatchesFor id tr ≠ []

/-- A request id is dead in a state when its queue entry is gone and the
id counter has moved past it: such an id can never be dispatched again. -/
def DeadFor (id : Nat) (st : CoordState) : Prop :=
  aLookup st.responseQueue id = none ∧ id < st.requestCount

/-- The callback payload of a handler outcome, when exactly one callback
was invoked. -/
def payloadOf (r : Except Unit StepOut) : Option (List FeatureRecord) :=
  match r with
  | .error _ => none
  | .ok out =>
    match out.callbacks with
    | [(_, res)] => some res
    | _ => none

/-- Modelled from the spec, section 4.3 (HierarchyAssembler): resolve a
matched record against the dataset — for a non-empty hierarchy, resolve
every ancestor entry of the first mapping to its record, keeping entries
whose identifier is present and silently dropping the rest, in the
mapping's own fixed entry order; for an empty hierarchy, the matched
record alone. -/
def specAssemble (data : WofData) (rec : FeatureRecord) : List FeatureRecord :=
  match rec.Hierarchy with
  | [] => [rec]
  | m :: _ =>
    m.foldr (fun e acc =>
      match aLookup data e.2 with
      | some r => r :: acc
      | none => acc) []

end Pip

namespace PostalCityMap

/-- ISO country codes using the USA zip system (line 17). -/
def USA_ISO_CODES : List String := ["USA", "ASM", "GUM", "MNP", "PRI", "VIR"]

/-- JavaScript regex `\s` on the ASCII range. -/
def jsSpace (c : Char) : Bool :=
  c = ' ' ∨ c = '\t' ∨ c = '\n' ∨ c = '\r' ∨ c = '\x0b' ∨ c = '\x0c'

/-- `postcode.match(/\d{5}/)`: the first run of five consecutive digits,
scanning left to right. -/
def matchFiveDigits : List Char → Option (List Char)
  | [] => none
  | c :: cs =>
    if ((c :: cs).take 5).length = 5 ∧ ((c :: cs).take 5).all Char.isDigit
    then some ((c :: cs).take 5)
    else matchFiveDigits cs

/-- The dash-suffix replacement of the zip fallback (line 136): drop the
suffix starting at the first dash that is not followed by a newline
anywhere after it (JavaScript dot does not cross a newline and the
end-anchor without the m flag only matches at the end of the input). -/
def replaceDashSuffix : List Char → List Char
  | [] => []
  | c :: cs =>
    if c = '-' ∧ ¬ cs.contains '\n' then []
    else c :: replaceDashSuffix cs

/-- `normalizePostcode(postcode, isocode)` (lines 126-140): for zip-system
country codes, the first five consecutive digits, else strip a ZIP+4
suffix and all non-digits and truncate to five; for everything else,
uppercase with whitespace removed. -/
def normalizePostcode (postcode : String) (isocode : Option String) : String :=
  if (match isocode with
      | some cc => USA_ISO_CODES.contains cc
      | none => false) then
    match matchFiveDigits postcode.data with
    | some m => String.mk m
    | none =>
      String.mk (((replaceDashSuffix postcode.data).filter Char.isDigit).take 5)
  else
    String.mk ((postcode.data.map Char.toUpper).filter (fun c => ¬ jsSpace c))

/-- One candidate row of a postal-city table (the object pushed at
lines 76-82). -/
structure Candidate where
  wofid : String
  name : String
  abbr : Option String
  placetype : Option String
  weight : Int
deriving DecidableEq, Repr

/-- One country's table: normalized postal code to ordered candidates. -/
abbrev Table := List (String × List Candidate)

/-- The loaded tables, keyed by ISO country code.  The table contents are
built from data files outside the repository sources, so they are taken
as a parameter here; they are never modified after loading. -/
abbrev Tables := List (String × Table)

/-- `lookup(isocode, postalcode)` (lines 143-151): absent country table
or absent normalized key gives null, otherwise the stored candidates. -/
def lookup (tables : Tables) (isocode postalcode : String) :
    Option (List Candidate) :=
  match aLookup tables isocode with
  | none => none
  | some t => aLookup t (normalizePostcode postalcode (some isocode))

end PostalCityMap

section AssocLemmas

variable {κ α : Type} [DecidableEq κ]

theorem aLookup_eq_none_iff (q : List (κ × α)) (k : κ) :
    aLookup q k = none ↔ k ∉ q.map Prod.fst := by
  induction q with
  | nil => simp [aLookup]
  | cons p rest ih =>
    obtain ⟨k0, v0⟩ := p
    by_cases h : k0 = k
    · subst h
      simp [aLookup]
    · simp [aLookup, h, ih, Ne.symm h]

theorem aLookup_cons_ne (k0 : κ) (v0 : α) (q : List (κ × α)) (k : κ) (h : k0 ≠ k) :
    aLookup ((k0, v0) :: q) k = aLookup q k := by
  simp [aLookup, h]

theorem aLookup_cons_self (k0 : κ) (v0 : α) (q : List (κ × α)) :
    aLookup ((k0, v0) :: q) k0 = some v0 := by
  simp [aLookup]

end AssocLemmas

namespace Pip

theorem aLookup_qSetLayers_self (q : List (Nat × PendingRequest)) (id : Nat)
    (rest : List String) (pr : PendingRequest) (h : aLookup q id = some pr) :
    aLookup (qSetLayers q id rest) id = some { pr with search_layers := rest } := by
  induction q with
  | nil => simp [aLookup] at h
  | cons p tail ih =>
    obtain ⟨k0, v0⟩ := p
    by_cases hk : k0 = id
    · subst hk
      simp only [aLookup_cons_self] at h
      cases h
      simp [qSetLayers, aLookup]
    · rw [aLookup_cons_ne _ _ _ _ hk] at h
      simpa [qSetLayers, aLookup, hk] using ih h

theorem aLookup_qSetLayers_ne (q : List (Nat × PendingRequest)) (id : Nat)
    (rest : List String) (id2 : Nat) (h : id2 ≠ id) :
    aLookup (qSetLayers q id rest) id2 = aLookup q id2 := by
  induction q with
  | nil => simp [qSetLayers, aLookup]
  | cons p tail ih =>
    obtain ⟨k0, v0⟩ := p
    by_cases hk2 : k0 = id2
    · subst hk2
      simp [qSetLayers, aLookup, h]
    · simp only [qSetLayers, List.map_cons] at ih ⊢
      rw [aLookup_cons_ne _ _ _ _ hk2, aLookup_cons_ne _ _ _ _ hk2]
      exact ih

theorem map_fst_qSetLayers (q : List (Nat × PendingRequest)) (id : Nat)
    (rest : List String) :
    (qSetLayers q id rest).map Prod.fst = q.map Prod.fst := by
  induction q with
  | nil => simp [qSetLayers]
  | cons p tail ih =>
    simp only [qSetLayers, List.map_cons] at ih ⊢
    rw [ih]

theorem qDelete_sublist (q : List (Nat × PendingRequest)) (id : Nat) :
    List.Sublist (qDelete q id) q := by
  induction q with
  | nil => simp [qDelete]
  | cons p tail ih =>
    by_cases hk : p.1 = id
    · simp only [qDelete, if_pos hk]
      exact List.sublist_cons_self p tail
    · simp only [qDelete, if_neg hk]
      exact List.Sublist.cons₂ p ih

theorem aLookup_qDelete_ne (q : List (Nat × PendingRequest)) (id id2 : Nat)
    (h : id2 ≠ id) :
    aLookup (qDelete q id) id2 = aLookup q id2 := by
  induction q with
  | nil => simp [qDelete]
  | cons p tail ih =>
    obtain ⟨k0, v0⟩ := p
    by_cases hk : k0 = id
    · subst hk
      have he : qDelete ((k0, v0) :: tail) k0 = tail := by simp [qDelete]
      rw [he, aLookup_cons_ne _ _ _ _ (fun he2 => h he2.symm)]
    · simp only [qDelete, if_neg hk]
      by_cases hk2 : k0 = id2
      · subst hk2
        rw [aLookup_cons_self, aLookup_cons_self]
      · rw [aLookup_cons_ne _ _ _ _ hk2, aLookup_cons_ne _ _ _ _ hk2]
        exact ih

theorem aLookup_qDelete_self (q : List (Nat × PendingRequest)) (id : Nat)
    (hnd : (q.map Prod.fst).Nodup) :
    aLookup (qDelete q id) id = none := by
  induction q with
  | nil => simp [qDelete, aLookup]
  | cons p tail ih =>
    obtain ⟨k0, v0⟩ := p
    simp only [List.map_cons, List.nodup_cons] at hnd
    by_cases hk : k0 = id
    · subst hk
      simp only [qDelete, if_pos rfl]
      rw [aLookup_eq_none_iff]
      exact hnd.1
    · simp only [qDelete, if_neg hk]
      rw [aLookup_cons_ne _ _ _ _ hk]
      exact ih hnd.2

theorem dedupSeen_sublist (l : List String) :
    ∀ seen, List.Sublist (dedupSeen seen l) l := by
  induction l with
  | nil => intro seen; simp [dedupSeen]
  | cons x xs ih =>
    intro seen
    by_cases hx : seen.contains x
    · simp only [dedupSeen, if_pos hx]
      exact List.Sublist.trans (ih seen) (List.sublist_cons_self x xs)
    · simp only [dedupSeen, if_neg hx]
      exact List.Sublist.cons₂ x (ih (x :: seen))

theorem dedupSeen_eq_self (l : List String) :
    ∀ seen, l.Nodup → (∀ x ∈ l, ¬ seen.contains x) → dedupSeen seen l = l := by
  induction l with
  | nil => intro seen _ _; simp [dedupSeen]
  | cons x xs ih =>
    intro seen hnd hout
    simp only [List.nodup_cons] at hnd
    have hx : ¬ seen.contains x := hout x (List.mem_cons_self x xs)
    simp only [dedupSeen, if_neg hx]
    congr 1
    refine ih (x :: seen) hnd.2 ?_
    intro y hy
    simp only [List.contains_cons, Bool.or_eq_true, not_or]
    constructor
    · intro he
      have hyx : y = x := by simpa [beq_iff_eq] using he
      exact hnd.1 (hyx ▸ hy)
    · exact fun hc => hout y (List.mem_cons_of_mem x hy) hc

theorem lodashIntersection_eq_filter (xs ys : List String) (hnd : xs.Nodup) :
    lodashIntersection xs ys = xs.filter (fun x => ys.contains x) := by
  unfold lodashIntersection
  exact dedupSeen_eq_self _ [] (hnd.filter _) (by intro x _; simp)

theorem lodashIntersection_sublist (xs ys : List String) :
    List.Sublist (lodashIntersection xs ys) xs :=
  List.Sublist.trans (dedupSeen_sublist _ []) (List.filter_sublist xs)

theorem lookupSearchLayers_sublist (active : List String)
    (req : Option (List String)) :
    List.Sublist (lookupSearchLayers active req) active := by
  cases req with
  | none => exact List.Sublist.refl active
  | some l => exact lodashIntersection_sublist active l

theorem dispatchesFor_append (id : Nat) (a b : List Output) :
    dispatchesFor id (a ++ b) = dispatchesFor id a ++ dispatchesFor id b := by
  simp [dispatchesFor, List.filterMap_append]

theorem dispatchesFor_dispatch (id : Nat) (d : Dispatch) :
    dispatchesFor id [Output.dispatch d] = if d.id = id then [d.layer] else [] := by
  by_cases h : d.id = id <;> simp [dispatchesFor, h]

theorem dispatchesFor_callback (id id2 : Nat) (res : List FeatureRecord) :
    dispatchesFor id [Output.callback id2 res] = [] := by
  simp [dispatchesFor]

theorem dispatchesFor_thrown (id : Nat) :
    dispatchesFor id [Output.thrown] = [] := by
  simp [dispatchesFor]

theorem dispatchesFor_nil (id : Nat) :
    dispatchesFor id [] = [] := rfl

theorem lookup_empty_eq (st : CoordState) (lat lon : Int)
    (req : Option (List String)) (h : lookupSearchLayers st.layers req = []) :
    lookup st lat lon req =
      ⟨{ st with requestCount := st.requestCount + 1 }, [], [(st.requestCount, [])]⟩ := by
  unfold lookup
  rw [h]

theorem lookup_cons_eq (st : CoordState) (lat lon : Int)
    (req : Option (List String)) (first : String) (rest : List String)
    (h : lookupSearchLayers st.layers req = first :: rest)
    (hfree : aLookup st.responseQueue st.requestCount = none) :
    lookup st lat lon req =
      ⟨⟨st.requestCount + 1,
        (st.requestCount, ⟨[], ⟨lat, lon⟩, rest⟩) :: st.responseQueue,
        st.wofData, st.layers⟩,
       [⟨st.requestCount, first, ⟨lat, lon⟩⟩], []⟩ := by
  unfold lookup
  rw [h]
  simp only [hfree, Option.isSome_none, Bool.false_eq_true, if_false]
  rfl

theorem handleResults_unknown_eq (st : CoordState) (msg : ResultsMsg)
    (h : aLookup st.responseQueue msg.id = none) :
    handleResults st msg = .ok ⟨st, [], []⟩ := by
  unfold handleResults
  rw [h]

theorem handleResults_miss_next_eq (st : CoordState) (msg : ResultsMsg)
    (pr : PendingRequest) (next : String) (rest : List String)
    (hq : aLookup st.responseQueue msg.id = some pr)
    (hm : msg.results = none)
    (hl : pr.search_layers = next :: rest) :
    handleResults st msg =
      .ok ⟨{ st with responseQueue := qSetLayers st.responseQueue msg.id rest },
           [⟨msg.id, next, pr.latLon⟩], []⟩ := by
  unfold handleResults
  rw [hq, hm]
  simp only [hl]
  rfl

theorem handleResults_miss_done_eq (st : CoordState) (msg : ResultsMsg)
    (pr : PendingRequest)
    (hq : aLookup st.responseQueue msg.id = some pr)
    (hm : msg.results = none)
    (hl : pr.search_layers = []) :
    handleResults st msg = .ok ⟨st, [], [(msg.id, [])]⟩ := by
  unfold handleResults
  rw [hq, hm]
  simp only [hl]

theorem handleResults_hit_eq (st : CoordState) (msg : ResultsMsg)
    (pr : PendingRequest) (fid : String) (rec : FeatureRecord)
    (hq : aLookup st.responseQueue msg.id = some pr)
    (hm : msg.results = some fid)
    (hd : aLookup st.wofData fid = some rec) :
    handleResults st msg =
      .ok ⟨{ st with responseQueue := qDelete st.responseQueue msg.id },
           [], [(msg.id, assemble st.wofData rec)]⟩ := by
  unfold handleResults
  rw [hq, hm]
  simp only [hd]

theorem handleResults_hit_absent_eq (st : CoordState) (msg : ResultsMsg)
    (pr : PendingRequest) (fid : String)
    (hq : aLookup st.responseQueue msg.id = some pr)
    (hm : msg.results = some fid)
    (hd : aLookup st.wofData fid = none) :
    handleResults st msg = .error () := by
  unfold handleResults
  rw [hq, hm]
  simp only [hd]

theorem dispatchesFor_append_dispatch_ne (id : Nat) (tr : List Output)
    (d : Dispatch) (h : d.id ≠ id) :
    dispatchesFor id (tr ++ [Output.dispatch d]) = dispatchesFor id tr := by
  rw [dispatchesFor_append, dispatchesFor_dispatch, if_neg h, List.append_nil]

theorem dispatchesFor_append_dispatch_self (tr : List Output) (i : Nat)
    (lay : String) (c : LatLon) :
    dispatchesFor i (tr ++ [Output.dispatch ⟨i, lay, c⟩]) =
      dispatchesFor i tr ++ [lay] := by
  rw [dispatchesFor_append, dispatchesFor_dispatch, if_pos rfl]

theorem dispatchesFor_append_callback (id id2 : Nat) (tr : List Output)
    (res : List FeatureRecord) :
    dispatchesFor id (tr ++ [Output.callback id2 res]) = dispatchesFor id tr := by
  rw [dispatchesFor_append, dispatchesFor_callback, List.append_nil]

theorem dispatchesFor_append_thrown (id : Nat) (tr : List Output) :
    dispatchesFor id (tr ++ [Output.thrown]) = dispatchesFor id tr := by
  rw [dispatchesFor_append, dispatchesFor_thrown, List.append_nil]

theorem dispatchOkFor_nil (st : CoordState) (tr : List Output) (ev : Event) :
    DispatchOkFor st tr ev [] := by
  constructor
  · simp [dispatchList]
  · intro d hd
    simp [dispatchList] at hd

theorem dispatchOkFor_callback (st : CoordState) (tr : List Output) (ev : Event)
    (id : Nat) (res : List FeatureRecord) :
    DispatchOkFor st tr ev [Output.callback id res] := by
  constructor
  · simp [dispatchList]
  · intro d hd
    simp [dispatchList] at hd

theorem dispatchOkFor_thrown (st : CoordState) (tr : List Output) (ev : Event) :
    DispatchOkFor st tr ev [Output.thrown] := by
  constructor
  · simp [dispatchList]
  · intro d hd
    simp [dispatchList] at hd

theorem inv_runStep (layers0 : List String) (rs : RunState) (tr : List Output)
    (ev : Event) (hInv : Inv layers0 rs.st tr) :
    Inv layers0 (runStep rs ev).1.st (tr ++ (runStep rs ev).2) ∧
    DispatchOkFor rs.st tr ev (runStep rs ev).2 := by
  by_cases hh : rs.halted
  · simp only [runStep, if_pos hh, List.append_nil]
    exact ⟨hInv, dispatchOkFor_nil rs.st tr ev⟩
  · cases ev with
    | lookupEv lat lon req =>
      cases hsl : lookupSearchLayers rs.st.layers req with
      | nil =>
        have hstep : step rs.st (.lookupEv lat lon req) =
            .ok ⟨{ rs.st with requestCount := rs.st.requestCount + 1 }, [],
                 [(rs.st.requestCount, [])]⟩ := by
          simp only [step]
          rw [lookup_empty_eq rs.st lat lon req hsl]
        simp only [runStep, if_neg hh, hstep, outputsOf, List.map_nil, List.map_cons,
          List.nil_append]
        refine ⟨⟨hInv.layersEq, hInv.keyNodup, ?_, ?_, ?_, ?_⟩,
          dispatchOkFor_callback _ _ _ _ _⟩
        · intro id hge
          have hge' : rs.st.requestCount ≤ id := Nat.le_of_succ_le hge
          rw [dispatchesFor_append_callback]
          exact hInv.fresh id hge'
        · intro id pr hq
          rw [dispatchesFor_append_callback]
          exact hInv.pend id pr hq
        · intro id
          rw [dispatchesFor_append_callback]
          exact hInv.disp id
        · intro id pr hq
          rw [dispatchesFor_append_callback]
          exact hInv.pendNE id pr hq
      | cons first rest =>
        have hfree : aLookup rs.st.responseQueue rs.st.requestCount = none :=
          (hInv.fresh rs.st.requestCount (Nat.le_refl _)).1
        have hfd : dispatchesFor rs.st.requestCount tr = [] :=
          (hInv.fresh rs.st.requestCount (Nat.le_refl _)).2
        have hstep : step rs.st (.lookupEv lat lon req) =
            .ok ⟨⟨rs.st.requestCount + 1,
                  (rs.st.requestCount, ⟨[], ⟨lat, lon⟩, rest⟩) :: rs.st.responseQueue,
                  rs.st.wofData, rs.st.layers⟩,
                 [⟨rs.st.requestCount, first, ⟨lat, lon⟩⟩], []⟩ := by
          simp only [step]
          rw [lookup_cons_eq rs.st lat lon req first rest hsl hfree]
        simp only [runStep, if_neg hh, hstep, outputsOf, List.map_nil, List.map_cons,
          List.append_nil]
        have hsub : List.Sublist (first :: rest) layers0 := by
          rw [← hsl, ← hInv.layersEq]
          exact lookupSearchLayers_sublist rs.st.layers req
        refine ⟨⟨hInv.layersEq, ?_, ?_, ?_, ?_, ?_⟩, ?_⟩
        · simp only [List.map_cons, List.nodup_cons]
          exact ⟨(aLookup_eq_none_iff _ _).mp hfree, hInv.keyNodup⟩
        · intro id hge
          have hne : rs.st.requestCount ≠ id := Nat.ne_of_lt hge
          rw [aLookup_cons_ne _ _ _ _ hne, dispatchesFor_append_dispatch_ne _ _ _ hne]
          exact hInv.fresh id (Nat.le_of_succ_le hge)
        · intro id pr hq
          by_cases hid : rs.st.requestCount = id
          · subst hid
            rw [aLookup_cons_self] at hq
            cases hq
            rw [dispatchesFor_append_dispatch_self tr rs.st.requestCount first ⟨lat, lon⟩,
              hfd]
            simpa using hsub
          · rw [aLookup_cons_ne _ _ _ _ hid] at hq
            rw [dispatchesFor_append_dispatch_ne _ _ _ hid]
            exact hInv.pend id pr hq
        · intro id
          by_cases hid : rs.st.requestCount = id
          · subst hid
            rw [dispatchesFor_append_dispatch_self tr rs.st.requestCount first ⟨lat, lon⟩,
              hfd]
            refine List.Sublist.trans ?_ hsub
            simpa using List.Sublist.cons₂ first (List.nil_sublist rest)
          · rw [dispatchesFor_append_dispatch_ne _ _ _ hid]
            exact hInv.disp id
        · intro id pr hq
          by_cases hid : rs.st.requestCount = id
          · subst hid
            rw [dispatchesFor_append_dispatch_self tr rs.st.requestCount first ⟨lat, lon⟩]
            simp
          · rw [aLookup_cons_ne _ _ _ _ hid] at hq
            rw [dispatchesFor_append_dispatch_ne _ _ _ hid]
            exact hInv.pendNE id pr hq
        · constructor
          · simp [dispatchList]
          · intro d hd
            simp only [dispatchList, List.filterMap_cons, List.filterMap_nil] at hd
            simp only [List.mem_singleton] at hd
            subst hd
            exact Or.inl ⟨⟨lat, lon, req, rfl⟩, rfl, hfd⟩
    | resultsEv msg =>
      cases hq : aLookup rs.st.responseQueue msg.id with
      | none =>
        have hstep : step rs.st (.resultsEv msg) = .ok ⟨rs.st, [], []⟩ := by
          simp only [step]
          exact handleResults_unknown_eq rs.st msg hq
        simp only [runStep, if_neg hh, hstep, outputsOf, List.map_nil, List.append_nil]
        exact ⟨hInv, dispatchOkFor_nil _ _ _⟩
      | some pr =>
        have hlt : msg.id < rs.st.requestCount := by
          by_contra hcon
          have := (hInv.fresh msg.id (Nat.le_of_not_lt hcon)).1
          rw [this] at hq
          exact Option.noConfusion hq
        cases hm : msg.results with
        | none =>
          cases hl : pr.search_layers with
          | cons next rest =>
            have hstep : step rs.st (.resultsEv msg) =
                .ok ⟨{ rs.st with
                        responseQueue := qSetLayers rs.st.responseQueue msg.id rest },
                     [⟨msg.id, next, pr.latLon⟩], []⟩ := by
              simp only [step]
              exact handleResults_miss_next_eq rs.st msg pr next rest hq hm hl
            simp only [runStep, if_neg hh, hstep, outputsOf, List.map_nil, List.map_cons,
              List.append_nil]
            have hpendOld := hInv.pend msg.id pr hq
            rw [hl] at hpendOld
            refine ⟨⟨hInv.layersEq, ?_, ?_, ?_, ?_, ?_⟩, ?_⟩
            · rw [map_fst_qSetLayers]
              exact hInv.keyNodup
            · intro id hge
              have hne : msg.id ≠ id := Nat.ne_of_lt (Nat.lt_of_lt_of_le hlt hge)
              rw [aLookup_qSetLayers_ne _ _ _ _ (fun he => hne he.symm),
                dispatchesFor_append_dispatch_ne _ _ _ hne]
              exact hInv.fresh id hge
            · intro id pr2 hq2
              by_cases hid : msg.id = id
              · subst hid
                rw [aLookup_qSetLayers_self _ _ _ _ hq] at hq2
                cases hq2
                rw [dispatchesFor_append_dispatch_self tr msg.id next pr.latLon]
                simpa [List.append_assoc] using hpendOld
              · rw [aLookup_qSetLayers_ne _ _ _ _ (fun he => hid he.symm)] at hq2
                rw [dispatchesFor_append_dispatch_ne _ _ _ hid]
                exact hInv.pend id pr2 hq2
            · intro id
              by_cases hid : msg.id = id
              · subst hid
                rw [dispatchesFor_append_dispatch_self tr msg.id next pr.latLon]
                refine List.Sublist.trans ?_ hpendOld
                refine List.Sublist.append_left ?_ _
                simpa using List.Sublist.cons₂ next (List.nil_sublist rest)
              · rw [dispatchesFor_append_dispatch_ne _ _ _ hid]
                exact hInv.disp id
            · intro id pr2 hq2
              by_cases hid : msg.id = id
              · subst hid
                rw [dispatchesFor_append_dispatch_self tr msg.id next pr.latLon]
                simp
              · rw [aLookup_qSetLayers_ne _ _ _ _ (fun he => hid he.symm)] at hq2
                rw [dispatchesFor_append_dispatch_ne _ _ _ hid]
                exact hInv.pendNE id pr2 hq2
            · constructor
              · simp [dispatchList]
              · intro d hd
                simp only [dispatchList, List.filterMap_cons, List.filterMap_nil] at hd
                simp only [List.mem_singleton] at hd
                subst hd
                refine Or.inr ⟨by rw [← hm], ?_⟩
                exact hInv.pendNE msg.id pr hq
          | nil =>
            have hstep : step rs.st (.resultsEv msg) =
                .ok ⟨rs.st, [], [(msg.id, [])]⟩ := by
              simp only [step]
              exact handleResults_miss_done_eq rs.st msg pr hq hm hl
            simp only [runStep, if_neg hh, hstep, outputsOf, List.map_nil, List.map_cons,
              List.nil_append]
            refine ⟨⟨hInv.layersEq, hInv.keyNodup, ?_, ?_, ?_, ?_⟩,
              dispatchOkFor_callback _ _ _ _ _⟩
            · intro id hge
              rw [dispatchesFor_append_callback]
              exact hInv.fresh id hge
            · intro id pr2 hq2
              rw [dispatchesFor_append_callback]
              exact hInv.pend id pr2 hq2
            · intro id
              rw [dispatchesFor_append_callback]
              exact hInv.disp id
            · intro id pr2 hq2
              rw [dispatchesFor_append_callback]
              exact hInv.pendNE id pr2 hq2
        | some fid =>
          cases hd : aLookup rs.st.wofData fid with
          | some rec =>
            have hstep : step rs.st (.resultsEv msg) =
                .ok ⟨{ rs.st with responseQueue := qDelete rs.st.responseQueue msg.id },
                     [], [(msg.id, assemble rs.st.wofData rec)]⟩ := by
              simp only [step]
              exact handleResults_hit_eq rs.st msg pr fid rec hq hm hd
            simp only [runStep, if_neg hh, hstep, outputsOf, List.map_nil, List.map_cons,
              List.nil_append]
            have hknd : ((qDelete rs.st.responseQueue msg.id).map Prod.fst).Nodup := by
              have hsub := (qDelete_sublist rs.st.responseQueue msg.id).map Prod.fst
              exact hInv.keyNodup.sublist hsub
            refine ⟨⟨hInv.layersEq, hknd, ?_, ?_, ?_, ?_⟩,
              dispatchOkFor_callback _ _ _ _ _⟩
            · intro id hge
              have hne : msg.id ≠ id := Nat.ne_of_lt (Nat.lt_of_lt_of_le hlt hge)
              rw [aLookup_qDelete_ne _ _ _ (fun he => hne he.symm),
                dispatchesFor_append_callback]
              exact hInv.fresh id hge
            · intro id pr2 hq2
              rw [dispatchesFor_append_callback]
              by_cases hid : msg.id = id
              · subst hid
                rw [aLookup_qDelete_self _ _ hInv.keyNodup] at hq2
                exact Option.noConfusion hq2
              · rw [aLookup_qDelete_ne _ _ _ (fun he => hid he.symm)] at hq2
                exact hInv.pend id pr2 hq2
            · intro id
              rw [dispatchesFor_append_callback]
              exact hInv.disp id
            · intro id pr2 hq2
              rw [dispatchesFor_append_callback]
              by_cases hid : msg.id = id
              · subst hid
                rw [aLookup_qDelete_self _ _ hInv.keyNodup] at hq2
                exact Option.noConfusion hq2
              · rw [aLookup_qDelete_ne _ _ _ (fun he => hid he.symm)] at hq2
                exact hInv.pendNE id pr2 hq2
          | none =>
            have hstep : step rs.st (.resultsEv msg) = .error () := by
              simp only [step]
              exact handleResults_hit_absent_eq rs.st msg pr fid hq hm hd
            simp only [runStep, if_neg hh, hstep]
            refine ⟨⟨hInv.layersEq, hInv.keyNodup, ?_, ?_, ?_, ?_⟩,
              dispatchOkFor_thrown _ _ _⟩
            · intro id hge
              rw [dispatchesFor_append_thrown]
              exact hInv.fresh id hge
            · intro id pr2 hq2
              rw [dispatchesFor_append_thrown]
              exact hInv.pend id pr2 hq2
            · intro id
              rw [dispatchesFor_append_thrown]
              exact hInv.disp id
            · intro id pr2 hq2
              rw [dispatchesFor_append_thrown]
              exact hInv.pendNE id pr2 hq2

theorem lookup_dup_eq (st : CoordState) (lat lon : Int)
    (req : Option (List String)) (first : String) (rest : List String)
    (h : lookupSearchLayers st.layers req = first :: rest)
    (hdup : (aLookup st.responseQueue st.requestCount).isSome = true) :
    lookup st lat lon req =
      ⟨{ st with requestCount := st.requestCount + 1 }, [], [(st.requestCount, [])]⟩ := by
  unfold lookup
  rw [h]
  simp only [hdup, if_true]

theorem inv_init (layers0 : List String) (n0 : Nat) (data : WofData) :
    Inv layers0 ⟨n0, [], data, layers0⟩ [] := by
  refine ⟨rfl, List.nodup_nil, ?_, ?_, ?_, ?_⟩
  · intro id _
    exact ⟨rfl, rfl⟩
  · intro id pr h
    simp [aLookup] at h
  · intro id
    exact List.nil_sublist layers0
  · intro id pr h
    simp [aLookup] at h

theorem inv_run (layers0 : List String) (evs : List Event) :
    ∀ (rs : RunState) (tr : List Output), Inv layers0 rs.st tr →
    Inv layers0 (run rs evs).1.st (tr ++ (run rs evs).2) ∧ StepsOk rs tr evs := by
  induction evs with
  | nil =>
    intro rs tr hInv
    simp only [run, List.append_nil]
    exact ⟨hInv, trivial⟩
  | cons ev evs ih =>
    intro rs tr hInv
    have h1 := inv_runStep layers0 rs tr ev hInv
    have h2 := ih (runStep rs ev).1 (tr ++ (runStep rs ev).2) h1.1
    refine ⟨?_, h1.2, h2.2⟩
    simp only [run]
    rw [← List.append_assoc]
    exact h2.1

theorem dead_runStep (id : Nat) (rs : RunState) (ev : Event)
    (h : DeadFor id rs.st) :
    DeadFor id (runStep rs ev).1.st ∧ dispatchesFor id (runStep rs ev).2 = [] := by
  obtain ⟨hnone, hlt⟩ := h
  by_cases hh : rs.halted
  · simp only [runStep, if_pos hh]
    exact ⟨⟨hnone, hlt⟩, rfl⟩
  · cases ev with
    | lookupEv lat lon req =>
      cases hsl : lookupSearchLayers rs.st.layers req with
      | nil =>
        have hstep : step rs.st (.lookupEv lat lon req) =
            .ok ⟨{ rs.st with requestCount := rs.st.requestCount + 1 }, [],
                 [(rs.st.requestCount, [])]⟩ := by
          simp only [step]
          rw [lookup_empty_eq rs.st lat lon req hsl]
        simp only [runStep, if_neg hh, hstep, outputsOf, List.map_nil, List.map_cons,
          List.nil_append]
        exact ⟨⟨hnone, Nat.lt_succ_of_lt hlt⟩, dispatchesFor_callback _ _ _⟩
      | cons first rest =>
        cases hdup : (aLookup rs.st.responseQueue rs.st.requestCount).isSome with
        | true =>
          have hstep : step rs.st (.lookupEv lat lon req) =
              .ok ⟨{ rs.st with requestCount := rs.st.requestCount + 1 }, [],
                   [(rs.st.requestCount, [])]⟩ := by
            simp only [step]
            rw [lookup_dup_eq rs.st lat lon req first rest hsl hdup]
          simp only [runStep, if_neg hh, hstep, outputsOf, List.map_nil, List.map_cons,
            List.nil_append]
          exact ⟨⟨hnone, Nat.lt_succ_of_lt hlt⟩, dispatchesFor_callback _ _ _⟩
        | false =>
          have hfree : aLookup rs.st.responseQueue rs.st.requestCount = none := by
            cases he : aLookup rs.st.responseQueue rs.st.requestCount with
            | none => rfl
            | some v => rw [he] at hdup; simp at hdup
          have hstep : step rs.st (.lookupEv lat lon req) =
              .ok ⟨⟨rs.st.requestCount + 1,
                    (rs.st.requestCount, ⟨[], ⟨lat, lon⟩, rest⟩) :: rs.st.responseQueue,
                    rs.st.wofData, rs.st.layers⟩,
                   [⟨rs.st.requestCount, first, ⟨lat, lon⟩⟩], []⟩ := by
            simp only [step]
            rw [lookup_cons_eq rs.st lat lon req first rest hsl hfree]
          simp only [runStep, if_neg hh, hstep, outputsOf, List.map_nil, List.map_cons,
            List.append_nil]
          have hne : rs.st.requestCount ≠ id := Nat.ne_of_gt hlt
          refine ⟨⟨?_, Nat.lt_succ_of_lt hlt⟩, ?_⟩
          · rw [aLookup_cons_ne _ _ _ _ hne]
            exact hnone
          · simp [dispatchesFor, hne]
    | resultsEv msg =>
      cases hq : aLookup rs.st.responseQueue msg.id with
      | none =>
        have hstep : step rs.st (.resultsEv msg) = .ok ⟨rs.st, [], []⟩ := by
          simp only [step]
          exact handleResults_unknown_eq rs.st msg hq
        simp only [runStep, if_neg hh, hstep, outputsOf, List.map_nil, List.append_nil]
        exact ⟨⟨hnone, hlt⟩, rfl⟩
      | some pr =>
        have hne : msg.id ≠ id := by
          intro he
          rw [he, hnone] at hq
          exact Option.noConfusion hq
        cases hm : msg.results with
        | none =>
          cases hl : pr.search_layers with
          | cons next rest =>
            have hstep : step rs.st (.resultsEv msg) =
                .ok ⟨{ rs.st with
                        responseQueue := qSetLayers rs.st.responseQueue msg.id rest },
                     [⟨msg.id, next, pr.latLon⟩], []⟩ := by
              simp only [step]
              exact handleResults_miss_next_eq rs.st msg pr next rest hq hm hl
            simp only [runStep, if_neg hh, hstep, outputsOf, List.map_nil, List.map_cons,
              List.append_nil]
            refine ⟨⟨?_, hlt⟩, ?_⟩
            · rw [aLookup_qSetLayers_ne _ _ _ _ (fun he => hne he.symm)]
              exact hnone
            · simp [dispatchesFor, hne]
          | nil =>
            have hstep : step rs.st (.resultsEv msg) =
                .ok ⟨rs.st, [], [(msg.id, [])]⟩ := by
              simp only [step]
              exact handleResults_miss_done_eq rs.st msg pr hq hm hl
            simp only [runStep, if_neg hh, hstep, outputsOf, List.map_nil, List.map_cons,
              List.nil_append]
            exact ⟨⟨hnone, hlt⟩, dispatchesFor_callback _ _ _⟩
        | some fid =>
          cases hd : aLookup rs.st.wofData fid with
          | some rec =>
            have hstep : step rs.st (.resultsEv msg) =
                .ok ⟨{ rs.st with responseQueue := qDelete rs.st.responseQueue msg.id },
                     [], [(msg.id, assemble rs.st.wofData rec)]⟩ := by
              simp only [step]
              exact handleResults_hit_eq rs.st msg pr fid rec hq hm hd
            simp only [runStep, if_neg hh, hstep, outputsOf, List.map_nil, List.map_cons,
              List.nil_append]
            refine ⟨⟨?_, hlt⟩, ?_⟩
            · rw [aLookup_qDelete_ne _ _ _ (fun he => hne he.symm)]
              exact hnone
            · exact dispatchesFor_callback _ _ _
          | none =>
            have hstep : step rs.st (.resultsEv msg) = .error () := by
              simp only [step]
              exact handleResults_hit_absent_eq rs.st msg pr fid hq hm hd
            simp only [runStep, if_neg hh, hstep]
            exact ⟨⟨hnone, hlt⟩, dispatchesFor_thrown _⟩

theorem dead_run (id : Nat) (evs : List Event) :
    ∀ rs : RunState, DeadFor id rs.st →
    DeadFor id (run rs evs).1.st ∧ dispatchesFor id (run rs evs).2 = [] := by
  induction evs with
  | nil =>
    intro rs h
    exact ⟨h, rfl⟩
  | cons ev evs ih =>
    intro rs h
    have h1 := dead_runStep id rs ev h
    have h2 := ih (runStep rs ev).1 h1.1
    refine ⟨h2.1, ?_⟩
    simp only [run]
    rw [dispatchesFor_append, h1.2, h2.2, List.append_nil]

theorem assemble_eq_specAssemble (data : WofData) (rec : FeatureRecord) :
    assemble data rec = specAssemble data rec := by
  unfold assemble specAssemble
  cases rec.Hierarchy with
  | nil => rfl
  | cons m rest =>
    simp only []
    induction m with
    | nil => rfl
    | cons e m ih =>
      simp only [List.map_cons, List.filterMap_cons, List.foldr_cons]
      cases aLookup data e.2 with
      | none => simpa using ih
      | some r => simpa using ih

theorem lookupSearchLayers_some_nil (active : List String) :
    lookupSearchLayers active (some []) = [] := by
  have hf : active.filter (fun x => List.contains [] x) = [] := by
    induction active with
    | nil => rfl
    | cons a l ih => simpa [List.filter_cons] using ih
  simp only [lookupSearchLayers, lodashIntersection, hf, dedupSeen]

end Pip

/-- C1 counterexample: in the state with one pending request (id 0) whose
remaining-layer queue is empty, a miss reply resolves the request with an
empty list, yet the resulting state still contains the responseQueue
entry for id 0 — the entry is not removed on queue exhaustion, refuting
the claim that every entry is destroyed on resolution. -/
theorem claim_C1_counterexample :
    Pip.handleResults ⟨1, [(0, ⟨[], ⟨0, 0⟩, []⟩)], [], Pip.defaultLayers⟩ ⟨0, none⟩
      = .ok ⟨⟨1, [(0, ⟨[], ⟨0, 0⟩, []⟩)], [], Pip.defaultLayers⟩, [], [(0, [])]⟩ ∧
    aLookup (⟨1, [(0, ⟨[], ⟨0, 0⟩, []⟩)], [], Pip.defaultLayers⟩ :
        Pip.CoordState).responseQueue 0 = some ⟨[], ⟨0, 0⟩, []⟩ :=
  ⟨rfl, rfl⟩

/-- C1 (amended): on a miss whose remaining-layer queue is empty the
coordinator resolves the request with an empty list, but the
PendingRequestTable entry is NOT removed — the coordinator state is left
entirely unchanged; entries are deleted only on a hit resolution. -/
theorem claim_C1_theorem :
    (∀ (st : Pip.CoordState) (msg : Pip.ResultsMsg) (pr : Pip.PendingRequest),
        aLookup st.responseQueue msg.id = some pr → msg.results = none →
        pr.search_layers = [] →
        Pip.handleResults st msg = .ok ⟨st, [], [(msg.id, [])]⟩) ∧
    (∀ (st : Pip.CoordState) (msg : Pip.ResultsMsg) (pr : Pip.PendingRequest)
        (fid : String) (rec : Pip.FeatureRecord),
        aLookup st.responseQueue msg.id = some pr → msg.results = some fid →
        aLookup st.wofData fid = some rec →
        Pip.handleResults st msg =
          .ok ⟨{ st with responseQueue := Pip.qDelete st.responseQueue msg.id }, [],
               [(msg.id, Pip.assemble st.wofData rec)]⟩) :=
  ⟨fun st msg pr hq hm hl => Pip.handleResults_miss_done_eq st msg pr hq hm hl,
   fun st msg pr fid rec hq hm hd => Pip.handleResults_hit_eq st msg pr fid rec hq hm hd⟩

/-- Witness for C1: the amended miss-exhaustion behaviour evaluated at a
concrete state with an empty remaining queue. -/
theorem claim_C1_witness :
    aLookup (⟨3, [(2, ⟨[], ⟨4, 5⟩, []⟩)], [], Pip.defaultLayers⟩ :
        Pip.CoordState).responseQueue 2 = some ⟨[], ⟨4, 5⟩, []⟩ ∧
    Pip.handleResults ⟨3, [(2, ⟨[], ⟨4, 5⟩, []⟩)], [], Pip.defaultLayers⟩ ⟨2, none⟩
      = .ok ⟨⟨3, [(2, ⟨[], ⟨4, 5⟩, []⟩)], [], Pip.defaultLayers⟩, [], [(2, [])]⟩ :=
  ⟨rfl, claim_C1_theorem.1 ⟨3, [(2, ⟨[], ⟨4, 5⟩, []⟩)], [], Pip.defaultLayers⟩
    ⟨2, none⟩ ⟨[], ⟨4, 5⟩, []⟩ rfl rfl rfl⟩

/-- C2: a lookup whose effective layer set is empty resolves immediately
with a success callback carrying an empty list, sends no search message
to any unit, and leaves the response queue untouched (only the request
counter advances). -/
theorem claim_C2_theorem (st : Pip.CoordState) (lat lon : Int)
    (req : Option (List String))
    (h : Pip.lookupSearchLayers st.layers req = []) :
    Pip.lookup st lat lon req =
      ⟨{ st with requestCount := st.requestCount + 1 }, [], [(st.requestCount, [])]⟩ :=
  Pip.lookup_empty_eq st lat lon req h

/-- Witness for C2: a lookup with an explicitly empty layer list on a
pool holding all canonical layers. -/
theorem claim_C2_witness :
    Pip.lookupSearchLayers (⟨5, [], [], Pip.defaultLayers⟩ :
        Pip.CoordState).layers (some []) = [] ∧
    Pip.lookup ⟨5, [], [], Pip.defaultLayers⟩ 1 2 (some []) =
      ⟨⟨6, [], [], Pip.defaultLayers⟩, [], [(5, [])]⟩ :=
  ⟨by decide, claim_C2_theorem ⟨5, [], [], Pip.defaultLayers⟩ 1 2 (some []) (by decide)⟩

/-- C3 counterexample: with a pool holding the full canonical layer set,
a lookup whose requested layer list is present but empty gets an empty
effective layer set — not the full canonical set the claim predicts for
an empty requested list. -/
theorem claim_C3_counterexample :
    Pip.createLayers none = Pip.defaultLayers ∧
    Pip.lookupSearchLayers (Pip.createLayers none) (some []) = [] ∧
    ([] : List String) ≠ Pip.defaultLayers :=
  ⟨by decide, by decide, by decide⟩

/-- C3 (amended): the effective layer set is the intersection with the
canonical order (for create) or with the pool's active layers (for
lookup), returned in that list's own order with unknown names ignored;
an empty-or-absent list at create and an absent list at lookup give the
full set, but an explicitly empty list at lookup gives the empty set.
The example requestedLayers = [country, neighbourhood] yields
[neighbourhood, country]. -/
theorem claim_C3_theorem :
    (∀ req : List String, req ≠ [] →
        Pip.createLayers (some req) =
          Pip.defaultLayers.filter (fun l => req.contains l)) ∧
    Pip.createLayers (some []) = Pip.defaultLayers ∧
    Pip.createLayers none = Pip.defaultLayers ∧
    (∀ active req : List String, active.Nodup →
        Pip.lookupSearchLayers active (some req) =
          active.filter (fun l => req.contains l)) ∧
    (∀ active : List String, Pip.lookupSearchLayers active none = active) ∧
    (∀ active : List String, Pip.lookupSearchLayers active (some []) = []) ∧
    Pip.lookupSearchLayers Pip.defaultLayers (some ["country", "neighbourhood"])
      = ["neighbourhood", "country"] := by
  refine ⟨?_, by decide, by decide, ?_, fun _ => rfl,
    Pip.lookupSearchLayers_some_nil, by decide⟩
  · intro req hne
    have hd : Pip.defaultLayers.Nodup := by decide
    cases req with
    | nil => exact absurd rfl hne
    | cons x xs =>
      simp only [Pip.createLayers, List.isEmpty_cons, if_false]
      exact Pip.lodashIntersection_eq_filter _ _ hd
  · intro active req hnd
    exact Pip.lodashIntersection_eq_filter active req hnd

/-- Witness for C3: the amended create-side intersection evaluated at the
caller-order example. -/
theorem claim_C3_witness :
    (["country", "neighbourhood"] : List String) ≠ [] ∧
    Pip.createLayers (some ["country", "neighbourhood"]) =
      Pip.defaultLayers.filter (fun l => ["country", "neighbourhood"].contains l) :=
  ⟨by decide, claim_C3_theorem.1 ["country", "neighbourhood"] (by decide)⟩

/-- C7: a results reply whose request id is absent from the response
queue is discarded — the handler returns normally (no crash), invokes no
callback, sends no message, and leaves the coordinator state unchanged. -/
theorem claim_C7_theorem (st : Pip.CoordState) (msg : Pip.ResultsMsg)
    (h : aLookup st.responseQueue msg.id = none) :
    Pip.handleResults st msg = .ok ⟨st, [], []⟩ :=
  Pip.handleResults_unknown_eq st msg h

/-- Witness for C7: a reply for id 9 against a queue holding only id 0. -/
theorem claim_C7_witness :
    aLookup (⟨1, [(0, ⟨[], ⟨0, 0⟩, ["country"]⟩)], [], Pip.defaultLayers⟩ :
        Pip.CoordState).responseQueue 9 = none ∧
    Pip.handleResults ⟨1, [(0, ⟨[], ⟨0, 0⟩, ["country"]⟩)], [], Pip.defaultLayers⟩
        ⟨9, some "f1"⟩
      = .ok ⟨⟨1, [(0, ⟨[], ⟨0, 0⟩, ["country"]⟩)], [], Pip.defaultLayers⟩, [], []⟩ :=
  ⟨rfl, claim_C7_theorem ⟨1, [(0, ⟨[], ⟨0, 0⟩, ["country"]⟩)], [], Pip.defaultLayers⟩
    ⟨9, some "f1"⟩ rfl⟩

/-- C10: when a hit reply names a matched feature id that is absent from
the merged dataset, the handler throws (reading the Hierarchy field of an
undefined record) instead of resolving the request — graceful degradation
covers only absent ancestor ids, not the matched id itself. -/
theorem claim_C10_theorem (st : Pip.CoordState) (msg : Pip.ResultsMsg)
    (pr : Pip.PendingRequest) (fid : String)
    (hq : aLookup st.responseQueue msg.id = some pr)
    (hm : msg.results = some fid)
    (hd : aLookup st.wofData fid = none) :
    Pip.handleResults st msg = .error () :=
  Pip.handleResults_hit_absent_eq st msg pr fid hq hm hd

/-- Witness for C10: a hit on feature id zzz with an empty dataset. -/
theorem claim_C10_witness :
    aLookup (⟨1, [(0, ⟨[], ⟨0, 0⟩, ["country"]⟩)], [], Pip.defaultLayers⟩ :
        Pip.CoordState).responseQueue 0 = some ⟨[], ⟨0, 0⟩, ["country"]⟩ ∧
    aLookup (⟨1, [(0, ⟨[], ⟨0, 0⟩, ["country"]⟩)], [], Pip.defaultLayers⟩ :
        Pip.CoordState).wofData "zzz" = none ∧
    Pip.handleResults ⟨1, [(0, ⟨[], ⟨0, 0⟩, ["country"]⟩)], [], Pip.defaultLayers⟩
        ⟨0, some "zzz"⟩ = .error () :=
  ⟨rfl, rfl,
   claim_C10_theorem ⟨1, [(0, ⟨[], ⟨0, 0⟩, ["country"]⟩)], [], Pip.defaultLayers⟩
     ⟨0, some "zzz"⟩ ⟨[], ⟨0, 0⟩, ["country"]⟩ "zzz" rfl rfl rfl⟩

/-- C4: over any event sequence from a fresh coordinator, every step
emits at most one search dispatch; a dispatch emitted at a lookup step
belongs to the request id freshly allocated at that very step and is the
first dispatch ever made for that id (so no lookup step can dispatch for
an already-outstanding id), and every other dispatch is emitted only
while processing a miss reply for exactly the dispatched id, an id that
had already been dispatched before — hence each further layer of a
request is dispatched only once the miss reply to its previous dispatch
has been received, giving at most one outstanding dispatch per request
id.  Moreover the layers dispatched for any id are duplicate-free and
follow the canonical order (a sublist of the pool's layer list), and for
every still-pending request the dispatched layers followed by its
remaining queue form a sublist of the pool's layer list — each dispatch
removes the front of the queue and no layer is ever re-dispatched. -/
theorem claim_C4_theorem (layers0 : List String) (data : Pip.WofData) (n0 : Nat)
    (evs : List Pip.Event) (hnd : layers0.Nodup) :
    Pip.StepsOk ⟨⟨n0, [], data, layers0⟩, false⟩ [] evs ∧
    (∀ id : Nat,
        (Pip.dispatchesFor id
          (Pip.run ⟨⟨n0, [], data, layers0⟩, false⟩ evs).2).Nodup ∧
        List.Sublist
          (Pip.dispatchesFor id (Pip.run ⟨⟨n0, [], data, layers0⟩, false⟩ evs).2)
          layers0) ∧
    (∀ (id : Nat) (pr : Pip.PendingRequest),
        aLookup (Pip.run ⟨⟨n0, [], data, layers0⟩, false⟩ evs).1.st.responseQueue id
          = some pr →
        List.Sublist
          (Pip.dispatchesFor id (Pip.run ⟨⟨n0, [], data, layers0⟩, false⟩ evs).2
            ++ pr.search_layers)
          layers0) := by
  have h := Pip.inv_run layers0 evs ⟨⟨n0, [], data, layers0⟩, false⟩ []
    (Pip.inv_init layers0 n0 data)
  rw [List.nil_append] at h
  refine ⟨h.2, ?_, ?_⟩
  · intro id
    exact ⟨hnd.sublist (h.1.disp id), h.1.disp id⟩
  · intro id pr hq
    exact h.1.pend id pr hq

/-- Witness for C4: the dispatch discipline evaluated on a concrete run
with one lookup over two layers followed by a miss reply. -/
theorem claim_C4_witness :
    Pip.defaultLayers.Nodup ∧
    (Pip.StepsOk ⟨⟨0, [], [], Pip.defaultLayers⟩, false⟩ []
        [Pip.Event.lookupEv 1 2 (some ["locality", "country"]),
         Pip.Event.resultsEv ⟨0, none⟩] ∧
     (∀ id : Nat,
        (Pip.dispatchesFor id
          (Pip.run ⟨⟨0, [], [], Pip.defaultLayers⟩, false⟩
            [Pip.Event.lookupEv 1 2 (some ["locality", "country"]),
             Pip.Event.resultsEv ⟨0, none⟩]).2).Nodup ∧
        List.Sublist
          (Pip.dispatchesFor id
            (Pip.run ⟨⟨0, [], [], Pip.defaultLayers⟩, false⟩
              [Pip.Event.lookupEv 1 2 (some ["locality", "country"]),
               Pip.Event.resultsEv ⟨0, none⟩]).2)
          Pip.defaultLayers) ∧
     (∀ (id : Nat) (pr : Pip.PendingRequest),
        aLookup
            (Pip.run ⟨⟨0, [], [], Pip.defaultLayers⟩, false⟩
              [Pip.Event.lookupEv 1 2 (some ["locality", "country"]),
               Pip.Event.resultsEv ⟨0, none⟩]).1.st.responseQueue id = some pr →
        List.Sublist
          (Pip.dispatchesFor id
            (Pip.run ⟨⟨0, [], [], Pip.defaultLayers⟩, false⟩
              [Pip.Event.lookupEv 1 2 (some ["locality", "country"]),
               Pip.Event.resultsEv ⟨0, none⟩]).2
            ++ pr.search_layers)
          Pip.defaultLayers)) :=
  ⟨by decide,
   claim_C4_theorem Pip.defaultLayers [] 0
     [Pip.Event.lookupEv 1 2 (some ["locality", "country"]),
      Pip.Event.resultsEv ⟨0, none⟩] (by decide)⟩

/-- C5: a hit reply for a pending request sends no further search
message, resolves the request with the hierarchy assembly of the matched
record, and deletes the table entry; afterwards the id is gone from the
table and no later event of any run can ever dispatch a layer for that
request id again. -/
theorem claim_C5_theorem (st : Pip.CoordState) (msg : Pip.ResultsMsg)
    (pr : Pip.PendingRequest) (fid : String) (rec : Pip.FeatureRecord)
    (hq : aLookup st.responseQueue msg.id = some pr)
    (hm : msg.results = some fid)
    (hd : aLookup st.wofData fid = some rec)
    (hkeys : (st.responseQueue.map Prod.fst).Nodup)
    (hlt : msg.id < st.requestCount) :
    Pip.handleResults st msg =
      .ok ⟨{ st with responseQueue := Pip.qDelete st.responseQueue msg.id }, [],
           [(msg.id, Pip.assemble st.wofData rec)]⟩ ∧
    aLookup (Pip.qDelete st.responseQueue msg.id) msg.id = none ∧
    ∀ evs : List Pip.Event,
      Pip.dispatchesFor msg.id
        (Pip.run ⟨{ st with responseQueue := Pip.qDelete st.responseQueue msg.id },
            false⟩ evs).2 = [] := by
  refine ⟨Pip.handleResults_hit_eq st msg pr fid rec hq hm hd,
    Pip.aLookup_qDelete_self _ _ hkeys, ?_⟩
  intro evs
  exact (Pip.dead_run msg.id evs
    ⟨{ st with responseQueue := Pip.qDelete st.responseQueue msg.id }, false⟩
    ⟨Pip.aLookup_qDelete_self _ _ hkeys, hlt⟩).2

/-- Witness for C5: a hit on feature f1 for pending request 0 holding a
further layer in its queue. -/
theorem claim_C5_witness :
    aLookup (⟨1, [(0, ⟨[], ⟨7, 8⟩, ["country"]⟩)], [("f1", ⟨[], "X"⟩)],
        Pip.defaultLayers⟩ : Pip.CoordState).responseQueue 0
      = some ⟨[], ⟨7, 8⟩, ["country"]⟩ ∧
    aLookup (⟨1, [(0, ⟨[], ⟨7, 8⟩, ["country"]⟩)], [("f1", ⟨[], "X"⟩)],
        Pip.defaultLayers⟩ : Pip.CoordState).wofData "f1" = some ⟨[], "X"⟩ ∧
    (Pip.handleResults
        ⟨1, [(0, ⟨[], ⟨7, 8⟩, ["country"]⟩)], [("f1", ⟨[], "X"⟩)], Pip.defaultLayers⟩
        ⟨0, some "f1"⟩ =
      .ok ⟨{ (⟨1, [(0, ⟨[], ⟨7, 8⟩, ["country"]⟩)], [("f1", ⟨[], "X"⟩)],
              Pip.defaultLayers⟩ : Pip.CoordState) with
             responseQueue :=
               Pip.qDelete [(0, ⟨[], ⟨7, 8⟩, ["country"]⟩)] 0 }, [],
           [(0, Pip.assemble [("f1", ⟨[], "X"⟩)] ⟨[], "X"⟩)]⟩ ∧
     aLookup (Pip.qDelete [(0, ⟨[], ⟨7, 8⟩, ["country"]⟩)] 0) 0 = none ∧
     ∀ evs : List Pip.Event,
       Pip.dispatchesFor 0
         (Pip.run ⟨{ (⟨1, [(0, ⟨[], ⟨7, 8⟩, ["country"]⟩)], [("f1", ⟨[], "X"⟩)],
              Pip.defaultLayers⟩ : Pip.CoordState) with
             responseQueue :=
               Pip.qDelete [(0, ⟨[], ⟨7, 8⟩, ["country"]⟩)] 0 }, false⟩ evs).2 = []) :=
  ⟨by decide, by decide,
   claim_C5_theorem
     ⟨1, [(0, ⟨[], ⟨7, 8⟩, ["country"]⟩)], [("f1", ⟨[], "X"⟩)], Pip.defaultLayers⟩
     ⟨0, some "f1"⟩ ⟨[], ⟨7, 8⟩, ["country"]⟩ "f1" ⟨[], "X"⟩
     (by decide) rfl (by decide) (by decide) (by decide)⟩

/-- C6: resolving a hit produces exactly the spec-side assembly of the
matched record — for a non-empty hierarchy, the records of the first
hierarchy mapping's entries resolved through the dataset with absent
identifiers silently dropped, in the mapping's fixed entry order; for an
empty hierarchy, the single-element list holding the matched record. -/
theorem claim_C6_theorem (st : Pip.CoordState) (msg : Pip.ResultsMsg)
    (pr : Pip.PendingRequest) (fid : String) (rec : Pip.FeatureRecord)
    (hq : aLookup st.responseQueue msg.id = some pr)
    (hm : msg.results = some fid)
    (hd : aLookup st.wofData fid = some rec) :
    Pip.handleResults st msg =
      .ok ⟨{ st with responseQueue := Pip.qDelete st.responseQueue msg.id }, [],
           [(msg.id, Pip.specAssemble st.wofData rec)]⟩ ∧
    (rec.Hierarchy = [] → Pip.specAssemble st.wofData rec = [rec]) := by
  constructor
  · rw [Pip.handleResults_hit_eq st msg pr fid rec hq hm hd,
      Pip.assemble_eq_specAssemble]
  · intro h
    simp [Pip.specAssemble, h]

/-- Witness for C6: a hit whose first hierarchy mapping names one absent
ancestor (f2, dropped) and one present ancestor (f3, kept). -/
theorem claim_C6_witness :
    aLookup (⟨1, [(0, ⟨[], ⟨0, 0⟩, []⟩)],
        [("f1", ⟨[[("locality", "f2"), ("country", "f3")]], "A"⟩),
         ("f3", ⟨[], "C"⟩)], Pip.defaultLayers⟩ :
        Pip.CoordState).responseQueue 0 = some ⟨[], ⟨0, 0⟩, []⟩ ∧
    aLookup (⟨1, [(0, ⟨[], ⟨0, 0⟩, []⟩)],
        [("f1", ⟨[[("locality", "f2"), ("country", "f3")]], "A"⟩),
         ("f3", ⟨[], "C"⟩)], Pip.defaultLayers⟩ :
        Pip.CoordState).wofData "f1"
      = some ⟨[[("locality", "f2"), ("country", "f3")]], "A"⟩ ∧
    (Pip.handleResults
        ⟨1, [(0, ⟨[], ⟨0, 0⟩, []⟩)],
         [("f1", ⟨[[("locality", "f2"), ("country", "f3")]], "A"⟩),
          ("f3", ⟨[], "C"⟩)], Pip.defaultLayers⟩ ⟨0, some "f1"⟩ =
      .ok ⟨{ (⟨1, [(0, ⟨[], ⟨0, 0⟩, []⟩)],
              [("f1", ⟨[[("locality", "f2"), ("country", "f3")]], "A"⟩),
               ("f3", ⟨[], "C"⟩)], Pip.defaultLayers⟩ : Pip.CoordState) with
             responseQueue := Pip.qDelete [(0, ⟨[], ⟨0, 0⟩, []⟩)] 0 }, [],
           [(0, Pip.specAssemble
                  [("f1", ⟨[[("locality", "f2"), ("country", "f3")]], "A"⟩),
                   ("f3", ⟨[], "C"⟩)]
                  ⟨[[("locality", "f2"), ("country", "f3")]], "A"⟩)]⟩ ∧
     ((⟨[[("locality", "f2"), ("country", "f3")]], "A"⟩ :
          Pip.FeatureRecord).Hierarchy = [] →
        Pip.specAssemble
            [("f1", ⟨[[("locality", "f2"), ("country", "f3")]], "A"⟩),
             ("f3", ⟨[], "C"⟩)]
            ⟨[[("locality", "f2"), ("country", "f3")]], "A"⟩
          = [⟨[[("locality", "f2"), ("country", "f3")]], "A"⟩])) :=
  ⟨by decide, by decide,
   claim_C6_theorem
     ⟨1, [(0, ⟨[], ⟨0, 0⟩, []⟩)],
      [("f1", ⟨[[("locality", "f2"), ("country", "f3")]], "A"⟩),
       ("f3", ⟨[], "C"⟩)], Pip.defaultLayers⟩
     ⟨0, some "f1"⟩ ⟨[], ⟨0, 0⟩, []⟩ "f1"
     ⟨[[("locality", "f2"), ("country", "f3")]], "A"⟩
     (by decide) rfl (by decide)⟩

/-- C8: hierarchy assembly is deterministic — handling two hit replies
for the same matched feature id against the same frozen dataset yields
identical callback payloads, whatever the request states, ids or queues
involved. -/
theorem claim_C8_theorem (d : Pip.WofData) (fid : String)
    (st1 st2 : Pip.CoordState) (msg1 msg2 : Pip.ResultsMsg)
    (pr1 pr2 : Pip.PendingRequest)
    (h1 : st1.wofData = d) (h2 : st2.wofData = d)
    (hq1 : aLookup st1.responseQueue msg1.id = some pr1)
    (hq2 : aLookup st2.responseQueue msg2.id = some pr2)
    (hm1 : msg1.results = some fid) (hm2 : msg2.results = some fid) :
    Pip.payloadOf (Pip.handleResults st1 msg1) =
      Pip.payloadOf (Pip.handleResults st2 msg2) := by
  cases hd : aLookup d fid with
  | none =>
    rw [Pip.handleResults_hit_absent_eq st1 msg1 pr1 fid hq1 hm1 (by rw [h1]; exact hd),
      Pip.handleResults_hit_absent_eq st2 msg2 pr2 fid hq2 hm2 (by rw [h2]; exact hd)]
  | some rec =>
    rw [Pip.handleResults_hit_eq st1 msg1 pr1 fid rec hq1 hm1 (by rw [h1]; exact hd),
      Pip.handleResults_hit_eq st2 msg2 pr2 fid rec hq2 hm2 (by rw [h2]; exact hd)]
    simp [Pip.payloadOf, h1, h2]

/-- Witness for C8: two unrelated request states over the same dataset
produce the same payload for the same matched id. -/
theorem claim_C8_witness :
    ((⟨1, [(0, ⟨[], ⟨0, 0⟩, []⟩)], [("f1", ⟨[], "X"⟩)], Pip.defaultLayers⟩ :
        Pip.CoordState).wofData = [("f1", ⟨[], "X"⟩)] ∧
     (⟨7, [(6, ⟨[], ⟨1, 1⟩, ["ocean"]⟩)], [("f1", ⟨[], "X"⟩)], []⟩ :
        Pip.CoordState).wofData = [("f1", ⟨[], "X"⟩)]) ∧
    Pip.payloadOf (Pip.handleResults
        ⟨1, [(0, ⟨[], ⟨0, 0⟩, []⟩)], [("f1", ⟨[], "X"⟩)], Pip.defaultLayers⟩
        ⟨0, some "f1"⟩) =
      Pip.payloadOf (Pip.handleResults
        ⟨7, [(6, ⟨[], ⟨1, 1⟩, ["ocean"]⟩)], [("f1", ⟨[], "X"⟩)], []⟩
        ⟨6, some "f1"⟩) :=
  ⟨⟨rfl, rfl⟩,
   claim_C8_theorem [("f1", ⟨[], "X"⟩)] "f1"
     ⟨1, [(0, ⟨[], ⟨0, 0⟩, []⟩)], [("f1", ⟨[], "X"⟩)], Pip.defaultLayers⟩
     ⟨7, [(6, ⟨[], ⟨1, 1⟩, ["ocean"]⟩)], [("f1", ⟨[], "X"⟩)], []⟩
     ⟨0, some "f1"⟩ ⟨6, some "f1"⟩ ⟨[], ⟨0, 0⟩, []⟩ ⟨[], ⟨1, 1⟩, ["ocean"]⟩
     rfl rfl (by decide) (by decide) rfl rfl⟩

/-- C9: the postal-city lookup returns null when the country code has no
loaded table or the normalized postal code is not a key of that table,
and otherwise returns exactly the ordered candidate list stored for that
key; being a pure function of the tables, it never modifies them. -/
theorem claim_C9_theorem (tables : PostalCityMap.Tables) (cc pc : String) :
    (aLookup tables cc = none → PostalCityMap.lookup tables cc pc = none) ∧
    (∀ t : PostalCityMap.Table, aLookup tables cc = some t →
        aLookup t (PostalCityMap.normalizePostcode pc (some cc)) = none →
        PostalCityMap.lookup tables cc pc = none) ∧
    (∀ (t : PostalCityMap.Table) (cands : List PostalCityMap.Candidate),
        aLookup tables cc = some t →
        aLookup t (PostalCityMap.normalizePostcode pc (some cc)) = some cands →
        PostalCityMap.lookup tables cc pc = some cands) := by
  refine ⟨?_, ?_, ?_⟩
  · intro h
    unfold PostalCityMap.lookup
    rw [h]
  · intro t ht hk
    unfold PostalCityMap.lookup
    rw [ht]
    exact hk
  · intro t cands ht hk
    unfold PostalCityMap.lookup
    rw [ht]
    exact hk

/-- Witness for C9: a USA zip lookup whose raw input carries a state
prefix and a ZIP+4 suffix, normalized to the stored key 90210. -/
theorem claim_C9_witness :
    aLookup ([("USA", [("90210", [⟨"85633041", "Beverly Hills", none, none, 0⟩])])] :
          PostalCityMap.Tables)
        "USA" = some [("90210", [⟨"85633041", "Beverly Hills", none, none, 0⟩])] ∧
    aLookup [("90210", [(⟨"85633041", "Beverly Hills", none, none, 0⟩ :
          PostalCityMap.Candidate)])]
        (PostalCityMap.normalizePostcode "CA 90210-1234" (some "USA"))
      = some [⟨"85633041", "Beverly Hills", none, none, 0⟩] ∧
    PostalCityMap.lookup
        [("USA", [("90210", [⟨"85633041", "Beverly Hills", none, none, 0⟩])])]
        "USA" "CA 90210-1234"
      = some [⟨"85633041", "Beverly Hills", none, none, 0⟩] :=
  ⟨by decide, by decide,
   (claim_C9_theorem
       [("USA", [("90210", [⟨"85633041", "Beverly Hills", none, none, 0⟩])])]
       "USA" "CA 90210-1234").2.2
     [("90210", [⟨"85633041", "Beverly Hills", none, none, 0⟩])]
     [⟨"85633041", "Beverly Hills", none, none, 0⟩]
     (by decide) (by decide)⟩
